import Mathlib

/-!
Verification of the oas-tools request-dispatch and response-validation
middleware (src/middleware/oas-router.js) against its natural-language
specification.  The JavaScript source is shallowly embedded: JS objects
relevant to the pipeline become Lean structures, JS exceptions become
Option.none, and the external collaborators (the z-schema validator and
the module system) become function parameters.  Observable effects
(invocations of the wrapped send primitive, status-code writes, log
lines) are gathered in an explicit result record.
-/

namespace OasRouter

/-- JSON values, modelling the JavaScript values that flow through the
response pipeline (controller payloads, schemas, error envelopes). -/
inductive Json where
  | null : Json
  | bool (b : Bool) : Json
  | num (n : Int) : Json
  | str (s : String) : Json
  | arr (items : List Json) : Json
  | obj (fields : List (String × Json)) : Json
deriving Repr

/-- Escapes of a single character inside a JSON string literal,
mirroring what JSON.stringify emits for the characters our payloads use. -/
def escapeChar (c : Char) : String :=
  if c = '"' then "\\\""
  else if c = '\\' then "\\\\"
  else if c = '\n' then "\\n"
  else if c = '\t' then "\\t"
  else if c = '\r' then "\\r"
  else String.mk [c]

/-- Escapes every character of a JSON string body. -/
def escapeString (s : String) : String :=
  String.join (s.data.map escapeChar)

mutual

/-- Canonical serialization of a JSON value, modelling JSON.stringify
(no added whitespace, insertion-ordered object fields). -/
def Json.stringify : Json → String
  | .null => "null"
  | .bool true => "true"
  | .bool false => "false"
  | .num n => toString n
  | .str s => "\"" ++ escapeString s ++ "\""
  | .arr items => "[" ++ stringifyItems items ++ "]"
  | .obj fields => "\x7b" ++ stringifyFields fields ++ "\x7d"

/-- Comma-separated serialization of array items. -/
def stringifyItems : List Json → String
  | [] => ""
  | [x] => Json.stringify x
  | x :: xs => Json.stringify x ++ "," ++ stringifyItems xs

/-- Comma-separated serialization of object fields. -/
def stringifyFields : List (String × Json) → String
  | [] => ""
  | [(k, v)] => "\"" ++ escapeString k ++ "\":" ++ Json.stringify v
  | (k, v) :: fs => "\"" ++ escapeString k ++ "\":" ++ Json.stringify v ++ "," ++ stringifyFields fs

end

/-- Inverse of escapeChar on the escape codes the serializer emits. -/
def unescapeOf (e : Char) : Option Char :=
  if e = '"' then some '"'
  else if e = '\\' then some '\\'
  else if e = 'n' then some '\n'
  else if e = 't' then some '\t'
  else if e = 'r' then some '\r'
  else none

/-- Reads the body of a JSON string literal up to its closing quote,
undoing the serializer's escapes. -/
def parseStringChars : List Char → Option (List Char × List Char)
  | [] => none
  | c :: cs =>
    if c = '"' then some ([], cs)
    else if c = '\\' then
      match cs with
      | [] => none
      | e :: cs2 =>
        match unescapeOf e with
        | none => none
        | some dc =>
          match parseStringChars cs2 with
          | none => none
          | some (s, r) => some (dc :: s, r)
    else
      match parseStringChars cs with
      | none => none
      | some (s, r) => some (c :: s, r)

/-- Takes the longest prefix of decimal digits. -/
def takeDigits : List Char → (List Char × List Char)
  | [] => ([], [])
  | c :: cs =>
    if c.isDigit then
      let (ds, rest) := takeDigits cs
      (c :: ds, rest)
    else ([], c :: cs)

/-- Numeric value of a digit string. -/
def digitsToNat (ds : List Char) : Nat :=
  ds.foldl (fun acc c => acc * 10 + (c.toNat - 48)) 0

mutual

/-- Recursive-descent reader for one JSON value, modelling JSON.parse on
the canonical texts produced by the serializer.  The fuel argument bounds
the recursion depth. -/
def parseValue : Nat → List Char → Option (Json × List Char)
  | 0, _ => none
  | Nat.succ f, cs =>
    match cs with
    | [] => none
    | c :: rest =>
      if c = 'n' then
        match rest with
        | 'u' :: 'l' :: 'l' :: r => some (.null, r)
        | _ => none
      else if c = 't' then
        match rest with
        | 'r' :: 'u' :: 'e' :: r => some (.bool true, r)
        | _ => none
      else if c = 'f' then
        match rest with
        | 'a' :: 'l' :: 's' :: 'e' :: r => some (.bool false, r)
        | _ => none
      else if c = '"' then
        match parseStringChars rest with
        | some (s, r) => some (.str (String.mk s), r)
        | none => none
      else if c = '-' then
        match takeDigits rest with
        | ([], _) => none
        | (ds, r) => some (.num (-(digitsToNat ds : Int)), r)
      else if c.isDigit then
        match takeDigits (c :: rest) with
        | (ds, r) => some (.num (digitsToNat ds), r)
      else if c.toNat = 91 then
        match rest with
        | [] => none
        | d :: r2 => if d.toNat = 93 then some (.arr [], r2) else
            match parseItems f rest with
            | some (items, r3) => some (.arr items, r3)
            | none => none
      else if c.toNat = 123 then
        match rest with
        | [] => none
        | d :: r2 => if d.toNat = 125 then some (.obj [], r2) else
            match parsePairs f rest with
            | some (fields, r3) => some (.obj fields, r3)
            | none => none
      else none

/-- Reads comma-separated array items and the closing bracket. -/
def parseItems : Nat → List Char → Option (List Json × List Char)
  | 0, _ => none
  | Nat.succ f, cs =>
    match parseValue f cs with
    | none => none
    | some (v, r) =>
      match r with
      | ',' :: r2 =>
        match parseItems f r2 with
        | some (items, r3) => some (v :: items, r3)
        | none => none
      | d :: r2 => if d.toNat = 93 then some ([v], r2) else none
      | [] => none

/-- Reads comma-separated object pairs and the closing brace. -/
def parsePairs : Nat → List Char → Option (List (String × Json) × List Char)
  | 0, _ => none
  | Nat.succ f, cs =>
    match cs with
    | '"' :: cs2 =>
      match parseStringChars cs2 with
      | none => none
      | some (k, r) =>
        match r with
        | ':' :: r2 =>
          match parseValue f r2 with
          | none => none
          | some (v, r3) =>
            match r3 with
            | ',' :: r4 =>
              match parsePairs f r4 with
              | some (fields, r5) => some ((String.mk k, v) :: fields, r5)
              | none => none
            | d :: r4 => if d.toNat = 125 then some ([(String.mk k, v)], r4) else none
            | [] => none
        | _ => none
    | _ => none

end

/-- Top-level JSON.parse model: reads one value and requires the input
to be fully consumed, as JSON.parse raises on trailing characters. -/
def Json.parse (s : String) : Option Json :=
  match parseValue (2 * s.length + 2) s.data with
  | some (j, []) => some j
  | _ => none

/-! ## Contract-document data model

The oasDoc object is only ever accessed through the property chains
oasDoc.paths[requestedSpecPath][method].responses[code],
.operationId, .x-router-controller and the content section of a
response, so the embedding gives those properties structure fields.  JS objects index by string keys in
insertion order; we model them as association lists looked up with
List.lookup.  A property that may be absent is an Option. -/

/-- Media-type object under a content section; carries the schema used
for validation (schemas are JSON values). -/
structure MediaTypeObject where
  schema : Json
deriving Repr

/-- Value of a ResponseSpec's content property.  The field holds the
entry for the application/json media type when one is declared; the
JS code reads content of the response section blindly at that key. -/
structure ContentObject where
  applicationJson : Option MediaTypeObject
deriving Repr

/-- Declared response for one status code (a value in the responses
mapping).  The content property is optional; the code tests it with
hasOwnProperty. -/
structure ResponseSpec where
  content : Option ContentObject
deriving Repr

/-- Contract entry for one path+method pair. -/
structure Operation where
  operationId : Option String
  xRouterController : Option String
  responses : List (String × ResponseSpec)
deriving Repr

/-- Contract Document: path template to method (lower-case) to
Operation. -/
structure OasDoc where
  paths : List (String × List (String × Operation))
deriving Repr

/-- Looks up oasDoc.paths[requestedSpecPath][method]; none models the
TypeError raised when either level is undefined and a property of it is
then read. -/
def lookupOperation (oasDoc : OasDoc) (requestedSpecPath method : String) : Option Operation :=
  (oasDoc.paths.lookup requestedSpecPath).bind (fun pathItem => pathItem.lookup method)

/-! ## Observable effects -/

/-- Severity levels of the logger collaborator. -/
inductive LogLevel where
  | debug : LogLevel
  | info : LogLevel
  | warning : LogLevel
  | error : LogLevel
deriving Repr, DecidableEq

/-- One emitted log line. -/
structure LogEntry where
  level : LogLevel
  msg : String
deriving Repr, DecidableEq

/-- One invocation of the wrapped original send primitive: the response
statusCode at the moment of the call and the body handed over. -/
structure SendCall where
  status : Nat
  body : String
deriving Repr, DecidableEq

/-- Mutable response-context state the pipeline reads and writes. -/
structure Res where
  statusCode : Nat
deriving Repr, DecidableEq

/-- Observable outcome of one run of the response-interception
pipeline: every oldSend invocation in order, the final statusCode of
the response context, and the log lines emitted. -/
structure CheckResult where
  sends : List SendCall
  statusCode : Nat
  logs : List LogEntry
deriving Repr, DecidableEq

/-- Validation error object reported by the external validator; the
code only reads its message property. -/
structure VErr where
  message : String
deriving Repr, DecidableEq

/-- Outcome of the external validation capability z-schema: none models
the callback receiving a null err (valid), some errs models a truthy
err array. -/
abbrev Validator := Json → Json → Option (List VErr)

/-! ## Source functions of oas-router.js -/

/-- Accumulator loop of processErr: for each error object appends
". " followed by its message, exactly as the indexed for-loop does. -/
def processErrLoop (errors : String) : List VErr → String
  | [] => errors
  | e :: rest => processErrLoop (errors ++ ". " ++ e.message) rest

/-- Embeds processErr: concatenates all error messages behind ". "
separators then removes the two leading characters with
substring(2, length). -/
def processErr (err : List VErr) : String :=
  let errors := processErrLoop "" err
  String.mk (errors.data.drop 2)

/-- Debug lines emitted at the top of checkResponse.  The oasDoc line
stringifies the object the way JS string concatenation does. -/
def checkDebugLogs (code : Nat) (method requestedSpecPath data : String) : List LogEntry :=
  [⟨.debug, "Processing at checkResponse:"⟩,
   ⟨.debug, "  -code: " ++ toString code⟩,
   ⟨.debug, "  -oasDoc: [object Object]"⟩,
   ⟨.debug, "  -method: " ++ method⟩,
   ⟨.debug, "  -requestedSpecPath: " ++ requestedSpecPath⟩,
   ⟨.debug, "  -data: " ++ data⟩]

/-- Embeds checkResponse of oas-router.js.  The validator and the
process-wide strict flag are passed explicitly.  data0 is content[0],
the serialized payload installed by the interceptor.  The result is
none exactly when the JS function raises before reaching oldSend
(undefined lookup of path or method, a content section without an
application/json entry, or an unparsable payload). -/
def checkResponse (validate : Validator) (strict : Bool) (res : Res) (oasDoc : OasDoc)
    (method requestedSpecPath data0 : String) : Option CheckResult :=
  let code := res.statusCode
  let data := data0
  let dbg := checkDebugLogs code method requestedSpecPath data
  match lookupOperation oasDoc requestedSpecPath method with
  | none => none
  | some op =>
    match op.responses.lookup (toString code) with
    | none =>
      let msg := "" ++ "Wrong response code: " ++ toString code
      if strict = true then
        some ⟨[⟨code, Json.stringify (.obj [("message", .str msg)])⟩], code,
              dbg ++ [⟨.error, msg⟩]⟩
      else
        some ⟨[⟨code, data⟩], code, dbg ++ [⟨.warning, msg⟩]⟩
    | some responseCodeSection =>
      match responseCodeSection.content with
      | some contentObj =>
        match contentObj.applicationJson with
        | none => none
        | some mto =>
          let validSchema := mto.schema
          let infoLog : LogEntry :=
            ⟨.info, "Schema to use for validation: " ++ Json.stringify validSchema⟩
          match Json.parse data with
          | none => none
          | some parsed =>
            match validate parsed validSchema with
            | some err =>
              let msg := "" ++ "Wrong data in the response. " ++ processErr err
              if msg.length > 0 then
                if strict = true then
                  some ⟨[⟨400, Json.stringify (.obj [("message", .str msg), ("content", parsed)])⟩],
                        400, dbg ++ [infoLog, ⟨.error, msg⟩]⟩
                else
                  some ⟨[⟨code, data⟩], code, dbg ++ [infoLog, ⟨.warning, msg⟩]⟩
              else
                some ⟨[⟨code, data⟩], code, dbg ++ [infoLog]⟩
            | none =>
              some ⟨[⟨code, data⟩], code, dbg ++ [infoLog]⟩
      | none =>
        some ⟨[⟨code, data⟩], code, dbg⟩

/-- Embeds the interceptor installed over res.send by OASRouter: the
wrapper serializes the controller payload with JSON.stringify, sets the
JSON content-type header, and hands the serialized text to
checkResponse together with the original send primitive. -/
def interceptedSend (validate : Validator) (strict : Bool) (res : Res) (oasDoc : OasDoc)
    (method requestedSpecPath : String) (payload : Json) : Option CheckResult :=
  checkResponse validate strict res oasDoc method requestedSpecPath (Json.stringify payload)

/-! ## Naming policy and controller resolution -/

/-- Splits a character list at every occurrence of the separator,
keeping empty fragments, with the JS semantics of split on a
one-character separator (the empty string yields one empty
fragment). -/
def splitOnChar (sep : Char) : List Char → List (List Char)
  | [] => [[]]
  | c :: rest =>
    let r := splitOnChar sep rest
    if c = sep then [] :: r
    else
      match r with
      | h :: t => (c :: h) :: t
      | [] => [[c]]

/-- Embeds the String.prototype.split calls of the router, which all
use a one-character separator. -/
def jsSplit (s : String) (sep : Char) : List String :=
  (splitOnChar sep s.data).map String.mk

/-- Embeds toLowerCase character-wise, as the router only lower-cases
ASCII HTTP method names. -/
def jsToLower (s : String) : String :=
  String.mk (s.data.map Char.toLower)

/-- Capitalizes the first character of a string the way
charAt(0).toUpperCase() + slice(1) does; the empty string stays
empty. -/
def capitalizeFirst (s : String) : String :=
  match s.data with
  | [] => ""
  | c :: cs => String.mk (c.toUpper :: cs)

/-- Embeds resourceName: splits the requested path on slashes, takes
the element at index 1 and capitalizes its first character.  none
models the TypeError raised when the split has no index 1 (charAt of
undefined). -/
def resourceName (requestedSpecPath : String) : Option String :=
  match (jsSplit requestedSpecPath '/')[1]? with
  | none => none
  | some resource => some (capitalizeFirst resource)

/-- Embeds generateControllerName: the resource name of the url
followed by the literal Controller suffix. -/
def generateControllerName (url : String) : Option String :=
  (resourceName url).map (fun r => r ++ "Controller")

/-- Embeds nameMethod: compares the method verbatim against the
upper-case literals GET, POST and PUT and collapses every other string
to delete. -/
def nameMethod (m : String) : String :=
  let method := m
  if method = "GET" then "list"
  else if method = "POST" then "create"
  else if method = "PUT" then "update"
  else "delete"

/-- Embeds generateOpId: the operationId declared in the contract when
present, otherwise the generated identifier nameMethod plus
resourceName.  none models the TypeError on a missing path or method
key or a resource-less path. -/
def generateOpId (oasDoc : OasDoc) (requestedSpecPath method : String) : Option String :=
  match lookupOperation oasDoc requestedSpecPath method with
  | none => none
  | some op =>
    match op.operationId with
    | some oid => some oid
    | none => (resourceName requestedSpecPath).map (fun r => nameMethod method ++ r)

/-- Modules the module-resolution collaborator can return; controller
modules are trees of named properties whose leaves are invocable
handlers.  Handlers are identified symbolically by a tag so that
invocations are comparable values. -/
inductive JsV where
  | fn (tag : String) : JsV
  | obj (fields : List (String × JsV)) : JsV
deriving Repr

/-- Module-resolution capability: require of a joined path, returning
none when the load raises. -/
abbrev RequireFn := String → Option JsV

/-- Embeds path.join for the two-segment joins the router performs. -/
def pathJoin (a b : String) : String := a ++ "/" ++ b

/-- Embeds existsController: attempts to load the controller at the
joined location and converts success to true and a raised load error to
false. -/
def existsController (requireMod : RequireFn) (locationOfControllers controllerName : String) : Bool :=
  (requireMod (pathJoin locationOfControllers controllerName)).isSome

/-- Embeds the controller-name resolution block of OASRouter:
x-router-controller verbatim when declared; else the conventional name
generated from the contract path template when the existence probe for
the name generated from the literal request path succeeds; else the
literal Default.  none models a TypeError in one of the name
computations or an undefined path/method lookup. -/
def resolveControllerName (requireMod : RequireFn) (controllers : String) (oasDoc : OasDoc)
    (requestedSpecPath reqPath method : String) : Option String :=
  match lookupOperation oasDoc requestedSpecPath method with
  | none => none
  | some op =>
    match op.xRouterController with
    | some c => some c
    | none =>
      match generateControllerName reqPath with
      | none => none
      | some probeName =>
        if existsController requireMod controllers probeName then
          generateControllerName requestedSpecPath
        else
          some "Default"

/-- Embeds the method normalization of OASRouter, which lower-cases
req.method before every use. -/
def routerMethod (reqMethod : String) : String := jsToLower reqMethod

/-- Operation identifier the dispatch orchestrator resolves for a
request: generateOpId applied to the lower-cased request method. -/
def routerOpId (oasDoc : OasDoc) (requestedSpecPath reqMethod : String) : Option String :=
  generateOpId oasDoc requestedSpecPath (routerMethod reqMethod)

/-! ## Dynamic handler invocation -/

/-- Property access on a module value: looks a key up among an object's
fields; reading a property of a handler yields undefined for the names
the router uses. -/
def JsV.getProp : JsV → String → Option JsV
  | .obj fields, k => fields.lookup k
  | .fn _, _ => none

/-- Walk of the indexed for-loop of executeFunctionByName over the
namespace segments.  The outer Option models a raised TypeError; the
inner Option models the walked context being undefined when the loop
ends (which only raises later, at the final property read). -/
def efbnWalk : JsV → List String → Option (Option JsV)
  | context, [] => some (some context)
  | context, n :: ns =>
    match context.getProp n with
    | some c => efbnWalk c ns
    | none =>
      match ns with
      | [] => some none
      | _ :: _ => none

/-- Invocation record: the this-receiver, the callee handler and the
argument list of the apply call. -/
structure Call (α : Type) where
  thisArg : JsV
  callee : JsV
  args : List α
deriving Repr

/-- Embeds executeFunctionByName: splits the identifier on dots, pops
the final segment, walks the remaining segments through the module,
and applies the property named by the final segment to
[req, res, next] with the walked object as receiver.  none models the
TypeError raised when a walk step or the final property is undefined
or not invocable. -/
def executeFunctionByName (functionName : String) (context : JsV) (req res next : α) :
    Option (Call α) :=
  let namespaces := jsSplit functionName '.'
  match namespaces.getLast? with
  | none => none
  | some func =>
    match efbnWalk context namespaces.dropLast with
    | none => none
    | some none => none
    | some (some ctx2) =>
      match ctx2.getProp func with
      | some (.fn tag) => some ⟨ctx2, .fn tag, [req, res, next]⟩
      | _ => none

/-- Handler invocation as claim C10 words it: split the identifier on
dots, walk every segment before the last through the module as a
nested property, then call the function named by the last segment on
the walked object with exactly the three arguments request, response
and continuation. -/
def specInvoke (opID : String) (controller : JsV) (req res next : α) : Option (Call α) :=
  let segs := jsSplit opID '.'
  match segs.getLast? with
  | none => none
  | some lastSeg =>
    match segs.dropLast.foldlM (fun c n => JsV.getProp c n) controller with
    | none => none
    | some target =>
      match target.getProp lastSeg with
      | some (.fn tag) => some ⟨target, .fn tag, [req, res, next]⟩
      | _ => none

/-- Branch condition under which the decision engine rewrites the
response status: strict mode together with a declared response whose
application/json schema exists and whose deserialized payload fails
validation. -/
def strictSchemaFailure (validate : Validator) (strict : Bool) (res : Res) (oasDoc : OasDoc)
    (method requestedSpecPath data0 : String) : Prop :=
  strict = true ∧ ∃ op rcs cobj mto parsed errs,
    lookupOperation oasDoc requestedSpecPath method = some op ∧
    op.responses.lookup (toString res.statusCode) = some rcs ∧
    rcs.content = some cobj ∧
    cobj.applicationJson = some mto ∧
    Json.parse data0 = some parsed ∧
    validate parsed mto.schema = some errs

/-- Operation declaring status 200 whose content section has no
application/json entry. -/
def opBadContent : Operation := ⟨none, none, [("200", ⟨some ⟨none⟩⟩)]⟩

/-- Contract document with the json-less content section under
get /p. -/
def docBadContent : OasDoc := ⟨[("/p", [("get", opBadContent)])]⟩

/-! ## Concrete fixtures used by witnesses and counterexamples -/

/-- Validator that reports no error for any instance and schema. -/
def vNone : Validator := fun _ _ => none

/-- Validator that reports a single error with message bad type. -/
def vFail : Validator := fun _ _ => some [⟨"bad type"⟩]

/-- Sample schema object. -/
def schemaNum : Json := .obj [("type", .str "number")]

/-- Operation declaring only status 200 with no content section. -/
def opNoContent : Operation := ⟨none, none, [("200", ⟨none⟩)]⟩

/-- Contract document with the no-content operation under get /p. -/
def docNoContent : OasDoc := ⟨[("/p", [("get", opNoContent)])]⟩

/-- Operation declaring status 200 with an application/json schema. -/
def opWithSchema : Operation := ⟨none, none, [("200", ⟨some ⟨some ⟨schemaNum⟩⟩⟩)]⟩

/-- Contract document with the schema-bearing operation under get /p. -/
def docWithSchema : OasDoc := ⟨[("/p", [("get", opWithSchema)])]⟩

/-- Module system that only resolves ctrl/PetsController. -/
def rmPets : RequireFn := fun s => if s = "ctrl/PetsController" then some (.obj []) else none

/-- Module system on which every load raises. -/
def rmNone : RequireFn := fun _ => none

/-- Contract document whose single path template has a parameter as
its first segment. -/
def docTemplate : OasDoc := ⟨[("/\x7bid\x7d", [("get", opNoContent)])]⟩

/-- Contract document declaring get, post and put on /pets, none with
an operationId. -/
def docPetsAll : OasDoc :=
  ⟨[("/pets", [("get", opNoContent), ("post", opNoContent), ("put", opNoContent)])]⟩

/-! ## Helper lemmas -/

/-- List of strings joined by the separator period-space, the first
without a leading separator, as claim C3 words the error-message
concatenation. -/
def joinDotSep : List String → String
  | [] => ""
  | [m] => m
  | m :: ms => m ++ ". " ++ joinDotSep ms

/-- Concatenation of all error messages, each behind a leading
separator; this is what the processErr accumulator builds before the
substring step. -/
def dotPrefixedAll : List VErr → String
  | [] => ""
  | e :: rest => ". " ++ e.message ++ dotPrefixedAll rest

theorem processErrLoop_eq (l : List VErr) :
    ∀ s : String, processErrLoop s l = s ++ dotPrefixedAll l := by
  induction l with
  | nil =>
    intro s
    simp [processErrLoop, dotPrefixedAll, String.append_empty]
  | cons e rest ih =>
    intro s
    simp only [processErrLoop, dotPrefixedAll]
    rw [ih]
    simp [String.append_assoc]

theorem dotPrefixedAll_eq_join (e : VErr) (rest : List VErr) :
    dotPrefixedAll (e :: rest) = ". " ++ joinDotSep ((e :: rest).map VErr.message) := by
  induction rest generalizing e with
  | nil => simp [dotPrefixedAll, joinDotSep, String.append_empty]
  | cons f rest2 ih =>
    simp only [dotPrefixedAll, List.map] at *
    rw [ih f]
    simp only [joinDotSep]
    simp [String.append_assoc]

/-- Behavior of processErr as the spec describes it: the reported
messages joined by period-space with no leading separator before the
first. -/
theorem processErr_eq_join (l : List VErr) :
    processErr l = joinDotSep (l.map VErr.message) := by
  cases l with
  | nil => rfl
  | cons e rest =>
    show String.mk ((processErrLoop "" (e :: rest)).data.drop 2) = _
    rw [processErrLoop_eq, String.empty_append, dotPrefixedAll_eq_join]
    rw [String.data_append]
    show String.mk (joinDotSep ((e :: rest).map VErr.message)).data = _
    exact String.ext rfl

theorem wrongDataMsg_length_pos (s : String) :
    0 < ("Wrong data in the response. " ++ s).length := by
  rw [String.length_append]
  have h : "Wrong data in the response. ".length = 28 := rfl
  omega

/-- Exhaustive description of the decision branches of checkResponse:
whenever the function returns without raising, the run took one of the
five branches (undeclared code strict or lax, declared code without
content, schema validation failure strict or lax, validation success)
and the observable outcome is the one listed for that branch. -/
theorem checkResponse_cases
    (validate : Validator) (strict : Bool) (res : Res) (oasDoc : OasDoc)
    (method requestedSpecPath data0 : String) (r : CheckResult)
    (h : checkResponse validate strict res oasDoc method requestedSpecPath data0 = some r) :
    ∃ op, lookupOperation oasDoc requestedSpecPath method = some op ∧
      ((op.responses.lookup (toString res.statusCode) = none ∧
         ((strict = true ∧
            r = ⟨[⟨res.statusCode,
                   Json.stringify (.obj [("message",
                     .str ("Wrong response code: " ++ toString res.statusCode))])⟩],
                 res.statusCode,
                 checkDebugLogs res.statusCode method requestedSpecPath data0 ++
                   [⟨.error, "Wrong response code: " ++ toString res.statusCode⟩]⟩) ∨
          (strict = false ∧
            r = ⟨[⟨res.statusCode, data0⟩], res.statusCode,
                 checkDebugLogs res.statusCode method requestedSpecPath data0 ++
                   [⟨.warning, "Wrong response code: " ++ toString res.statusCode⟩]⟩))) ∨
       (∃ rcs, op.responses.lookup (toString res.statusCode) = some rcs ∧
         rcs.content = none ∧
         r = ⟨[⟨res.statusCode, data0⟩], res.statusCode,
              checkDebugLogs res.statusCode method requestedSpecPath data0⟩) ∨
       (∃ rcs cobj mto parsed,
         op.responses.lookup (toString res.statusCode) = some rcs ∧
         rcs.content = some cobj ∧
         cobj.applicationJson = some mto ∧
         Json.parse data0 = some parsed ∧
         ((∃ errs, validate parsed mto.schema = some errs ∧
            ((strict = true ∧
               r = ⟨[⟨400, Json.stringify (.obj [("message",
                        .str ("Wrong data in the response. " ++ processErr errs)),
                        ("content", parsed)])⟩],
                    400,
                    checkDebugLogs res.statusCode method requestedSpecPath data0 ++
                      [⟨.info, "Schema to use for validation: " ++ Json.stringify mto.schema⟩,
                       ⟨.error, "Wrong data in the response. " ++ processErr errs⟩]⟩) ∨
             (strict = false ∧
               r = ⟨[⟨res.statusCode, data0⟩], res.statusCode,
                    checkDebugLogs res.statusCode method requestedSpecPath data0 ++
                      [⟨.info, "Schema to use for validation: " ++ Json.stringify mto.schema⟩,
                       ⟨.warning, "Wrong data in the response. " ++ processErr errs⟩]⟩))) ∨
          (validate parsed mto.schema = none ∧
            r = ⟨[⟨res.statusCode, data0⟩], res.statusCode,
                 checkDebugLogs res.statusCode method requestedSpecPath data0 ++
                   [⟨.info, "Schema to use for validation: " ++ Json.stringify mto.schema⟩]⟩)))) := by
  unfold checkResponse at h
  dsimp only at h
  simp only [String.empty_append] at h
  cases hop : lookupOperation oasDoc requestedSpecPath method with
  | none => rw [hop] at h; exact Option.noConfusion h
  | some op =>
    rw [hop] at h
    dsimp only at h
    refine ⟨op, rfl, ?_⟩
    cases hrc : op.responses.lookup (toString res.statusCode) with
    | none =>
      rw [hrc] at h
      dsimp only at h
      cases hs : strict with
      | true =>
        subst hs
        rw [if_pos rfl] at h
        exact Or.inl ⟨rfl, Or.inl ⟨rfl, (Option.some.injEq _ _ ▸ h).symm⟩⟩
      | false =>
        subst hs
        rw [if_neg (by simp)] at h
        exact Or.inl ⟨rfl, Or.inr ⟨rfl, (Option.some.injEq _ _ ▸ h).symm⟩⟩
    | some rcs =>
      rw [hrc] at h
      dsimp only at h
      cases hco : rcs.content with
      | none =>
        rw [hco] at h
        dsimp only at h
        exact Or.inr (Or.inl ⟨rcs, rfl, hco, (Option.some.injEq _ _ ▸ h).symm⟩)
      | some cobj =>
        rw [hco] at h
        dsimp only at h
        cases hcj : cobj.applicationJson with
        | none => rw [hcj] at h; exact Option.noConfusion h
        | some mto =>
          rw [hcj] at h
          dsimp only at h
          cases hp : Json.parse data0 with
          | none => rw [hp] at h; exact Option.noConfusion h
          | some parsed =>
            rw [hp] at h
            dsimp only at h
            cases hv : validate parsed mto.schema with
            | none =>
              rw [hv] at h
              dsimp only at h
              exact Or.inr (Or.inr ⟨rcs, cobj, mto, parsed, rfl, hco, hcj, rfl,
                Or.inr ⟨hv, (Option.some.injEq _ _ ▸ h).symm⟩⟩)
            | some errs =>
              rw [hv] at h
              dsimp only at h
              rw [if_pos (wrongDataMsg_length_pos (processErr errs))] at h
              cases hs : strict with
              | true =>
                subst hs
                rw [if_pos rfl] at h
                exact Or.inr (Or.inr ⟨rcs, cobj, mto, parsed, rfl, hco, hcj, rfl,
                  Or.inl ⟨errs, hv, Or.inl ⟨rfl, (Option.some.injEq _ _ ▸ h).symm⟩⟩⟩)
              | false =>
                subst hs
                rw [if_neg (by simp)] at h
                exact Or.inr (Or.inr ⟨rcs, cobj, mto, parsed, rfl, hco, hcj, rfl,
                  Or.inl ⟨errs, hv, Or.inr ⟨rfl, (Option.some.injEq _ _ ▸ h).symm⟩⟩⟩)

/-! ## Claims -/

/-- Claim C1: whenever the response-interception pipeline completes a
run (it does on the five decision paths: validation success,
non-strict warning, strict rejection for an undeclared code or a
schema failure, and missing schema), the wrapped original send is
invoked exactly once. -/
theorem claim_C1 (validate : Validator) (strict : Bool) (res : Res) (oasDoc : OasDoc)
    (method requestedSpecPath : String) (payload : Json) (r : CheckResult)
    (h : interceptedSend validate strict res oasDoc method requestedSpecPath payload = some r) :
    r.sends.length = 1 := by
  obtain ⟨op, -, hbr⟩ := checkResponse_cases validate strict res oasDoc method requestedSpecPath
    (Json.stringify payload) r h
  rcases hbr with ⟨-, ⟨-, hr⟩ | ⟨-, hr⟩⟩ | ⟨rcs, -, -, hr⟩ |
    ⟨rcs, cobj, mto, parsed, -, -, -, -, ⟨errs, -, ⟨-, hr⟩ | ⟨-, hr⟩⟩ | ⟨-, hr⟩⟩ <;>
    subst hr <;> rfl

theorem claim_C1_witness :
    (⟨[⟨200, "\"x\""⟩], 200, checkDebugLogs 200 "get" "/p" "\"x\""⟩ : CheckResult).sends.length = 1 :=
  claim_C1 vNone true ⟨200⟩ docNoContent "get" "/p" (.str "x") _ (by rfl)

/-- Claim C2: a response whose status code is not declared in the
Operation's responses section is sent through the original send with a
replaced payload, the serialized message object naming the wrong
response code, when strict mode is on (status code unchanged, error
logged); with the untouched original payload when strict mode is off
(warning logged). -/
theorem claim_C2 (validate : Validator) (strict : Bool) (res : Res) (oasDoc : OasDoc)
    (method requestedSpecPath data0 : String) (op : Operation) (r : CheckResult)
    (hop : lookupOperation oasDoc requestedSpecPath method = some op)
    (hrc : op.responses.lookup (toString res.statusCode) = none)
    (h : checkResponse validate strict res oasDoc method requestedSpecPath data0 = some r) :
    (strict = true →
      r.sends = [⟨res.statusCode,
        Json.stringify (.obj [("message",
          .str ("Wrong response code: " ++ toString res.statusCode))])⟩] ∧
      r.statusCode = res.statusCode ∧
      (⟨.error, "Wrong response code: " ++ toString res.statusCode⟩ : LogEntry) ∈ r.logs) ∧
    (strict = false →
      r.sends = [⟨res.statusCode, data0⟩] ∧
      r.statusCode = res.statusCode ∧
      (⟨.warning, "Wrong response code: " ++ toString res.statusCode⟩ : LogEntry) ∈ r.logs) := by
  obtain ⟨op2, hop2, hbr⟩ := checkResponse_cases _ _ _ _ _ _ _ _ h
  rw [hop] at hop2
  obtain rfl : op = op2 := Option.some.inj hop2
  rcases hbr with ⟨-, hcase⟩ | ⟨rcs, hrc2, -, -⟩ |
    ⟨rcs, cobj, mto, parsed, hrc2, -, -, -, -⟩
  · constructor
    · intro hs
      rcases hcase with ⟨-, hr⟩ | ⟨hs2, -⟩
      · subst hr; exact ⟨rfl, rfl, by simp⟩
      · rw [hs] at hs2; exact absurd hs2 (by simp)
    · intro hs
      rcases hcase with ⟨hs2, -⟩ | ⟨-, hr⟩
      · rw [hs] at hs2; exact absurd hs2 (by simp)
      · subst hr; exact ⟨rfl, rfl, by simp⟩
  · rw [hrc] at hrc2; exact Option.noConfusion hrc2
  · rw [hrc] at hrc2; exact Option.noConfusion hrc2

theorem claim_C2_witness :
    ((⟨[⟨404, Json.stringify (.obj [("message", .str "Wrong response code: 404")])⟩], 404,
        checkDebugLogs 404 "get" "/p" "\"x\"" ++
          [⟨.error, "Wrong response code: 404"⟩]⟩ : CheckResult).sends =
      [⟨404, Json.stringify (.obj [("message",
        .str ("Wrong response code: " ++ toString (404 : Nat)))])⟩] ∧
     (404 : Nat) = 404 ∧
     (⟨.error, "Wrong response code: " ++ toString (404 : Nat)⟩ : LogEntry) ∈
       (checkDebugLogs 404 "get" "/p" "\"x\"" ++ [⟨.error, "Wrong response code: 404"⟩])) ∧
    ((⟨[⟨404, "\"x\""⟩], 404,
        checkDebugLogs 404 "get" "/p" "\"x\"" ++
          [⟨.warning, "Wrong response code: 404"⟩]⟩ : CheckResult).sends = [⟨404, "\"x\""⟩] ∧
     (404 : Nat) = 404 ∧
     (⟨.warning, "Wrong response code: " ++ toString (404 : Nat)⟩ : LogEntry) ∈
       (checkDebugLogs 404 "get" "/p" "\"x\"" ++ [⟨.warning, "Wrong response code: 404"⟩])) :=
  ⟨(claim_C2 vNone true ⟨404⟩ docNoContent "get" "/p" "\"x\"" opNoContent _
      (by rfl) (by rfl) (by rfl)).1 rfl,
   (claim_C2 vNone false ⟨404⟩ docNoContent "get" "/p" "\"x\"" opNoContent _
      (by rfl) (by rfl) (by rfl)).2 rfl⟩

/-- Claim C3: a response whose declared ResponseSpec carries a JSON
schema and whose deserialized payload fails validation is, in strict
mode, sent through the original send with the payload replaced by the
serialized object holding the message (Wrong data in the response
followed by all validator messages joined by period-space, no leading
separator before the first) and the deserialized content, with the
status code forced to 400 and an error logged. -/
theorem claim_C3 (validate : Validator) (res : Res) (oasDoc : OasDoc)
    (method requestedSpecPath data0 : String) (op : Operation) (rcs : ResponseSpec)
    (cobj : ContentObject) (mto : MediaTypeObject) (parsed : Json) (errs : List VErr)
    (r : CheckResult)
    (hop : lookupOperation oasDoc requestedSpecPath method = some op)
    (hrc : op.responses.lookup (toString res.statusCode) = some rcs)
    (hco : rcs.content = some cobj)
    (hcj : cobj.applicationJson = some mto)
    (hp : Json.parse data0 = some parsed)
    (hv : validate parsed mto.schema = some errs)
    (h : checkResponse validate true res oasDoc method requestedSpecPath data0 = some r) :
    r.sends = [⟨400, Json.stringify (.obj [("message",
      .str ("Wrong data in the response. " ++ joinDotSep (errs.map VErr.message))),
      ("content", parsed)])⟩] ∧
    r.statusCode = 400 ∧
    (⟨.error, "Wrong data in the response. " ++ joinDotSep (errs.map VErr.message)⟩ : LogEntry)
      ∈ r.logs := by
  obtain ⟨op2, hop2, hbr⟩ := checkResponse_cases _ _ _ _ _ _ _ _ h
  rw [hop] at hop2
  obtain rfl : op = op2 := Option.some.inj hop2
  rcases hbr with ⟨hrc2, -⟩ | ⟨rcs2, hrc2, hco2, -⟩ |
    ⟨rcs2, cobj2, mto2, parsed2, hrc2, hco2, hcj2, hp2, hrest⟩
  · rw [hrc] at hrc2; exact Option.noConfusion hrc2
  · rw [hrc] at hrc2
    obtain rfl : rcs = rcs2 := Option.some.inj hrc2
    rw [hco] at hco2; exact Option.noConfusion hco2
  · rw [hrc] at hrc2
    obtain rfl : rcs = rcs2 := Option.some.inj hrc2
    rw [hco] at hco2
    obtain rfl : cobj = cobj2 := Option.some.inj hco2
    rw [hcj] at hcj2
    obtain rfl : mto = mto2 := Option.some.inj hcj2
    rw [hp] at hp2
    obtain rfl : parsed = parsed2 := Option.some.inj hp2
    rcases hrest with ⟨errs2, hv2, hcase⟩ | ⟨hv2, -⟩
    · rw [hv] at hv2
      obtain rfl : errs = errs2 := Option.some.inj hv2
      rcases hcase with ⟨-, hr⟩ | ⟨hfalse, -⟩
      · subst hr
        rw [← processErr_eq_join]
        exact ⟨rfl, rfl, by simp⟩
      · exact absurd hfalse (by simp)
    · rw [hv] at hv2; exact Option.noConfusion hv2

theorem claim_C3_witness :
    (⟨[⟨400, Json.stringify (.obj [("message", .str "Wrong data in the response. bad type"),
          ("content", .obj [("id", .str "x")])])⟩], 400,
        checkDebugLogs 200 "get" "/p" (Json.stringify (.obj [("id", .str "x")])) ++
          [⟨.info, "Schema to use for validation: " ++ Json.stringify schemaNum⟩,
           ⟨.error, "Wrong data in the response. bad type"⟩]⟩ : CheckResult).sends =
      [⟨400, Json.stringify (.obj [("message",
        .str ("Wrong data in the response. " ++
          joinDotSep ([VErr.mk "bad type"].map VErr.message))),
        ("content", .obj [("id", .str "x")])])⟩] ∧
    (400 : Nat) = 400 ∧
    (⟨.error, "Wrong data in the response. " ++
        joinDotSep ([VErr.mk "bad type"].map VErr.message)⟩ : LogEntry) ∈
      (checkDebugLogs 200 "get" "/p" (Json.stringify (.obj [("id", .str "x")])) ++
        [⟨.info, "Schema to use for validation: " ++ Json.stringify schemaNum⟩,
         ⟨.error, "Wrong data in the response. bad type"⟩]) :=
  claim_C3 vFail ⟨200⟩ docWithSchema "get" "/p" (Json.stringify (.obj [("id", .str "x")]))
    opWithSchema ⟨some ⟨some ⟨schemaNum⟩⟩⟩ ⟨some ⟨schemaNum⟩⟩ ⟨schemaNum⟩
    (.obj [("id", .str "x")]) [⟨"bad type"⟩] _
    (by rfl) (by rfl) (by rfl) (by rfl) (by rfl) (by rfl) (by rfl)

/-- Claim C6: when strict mode is off, and likewise on validation
success in any mode, the body handed to the original send is exactly
the serialized original controller payload. -/
theorem claim_C6 (validate : Validator) (strict : Bool) (res : Res) (oasDoc : OasDoc)
    (method requestedSpecPath : String) (payload : Json) (r : CheckResult)
    (h : interceptedSend validate strict res oasDoc method requestedSpecPath payload = some r) :
    (strict = false → r.sends.map SendCall.body = [Json.stringify payload]) ∧
    (∀ op rcs cobj mto parsed,
      lookupOperation oasDoc requestedSpecPath method = some op →
      op.responses.lookup (toString res.statusCode) = some rcs →
      rcs.content = some cobj →
      cobj.applicationJson = some mto →
      Json.parse (Json.stringify payload) = some parsed →
      validate parsed mto.schema = none →
      r.sends.map SendCall.body = [Json.stringify payload]) := by
  obtain ⟨op2, hop2, hbr⟩ := checkResponse_cases validate strict res oasDoc method
    requestedSpecPath (Json.stringify payload) r h
  constructor
  · intro hs
    subst hs
    rcases hbr with ⟨-, ⟨htrue, -⟩ | ⟨-, hr⟩⟩ | ⟨rcs, -, -, hr⟩ |
      ⟨rcs, cobj, mto, parsed, -, -, -, -, ⟨errs, -, ⟨htrue, -⟩ | ⟨-, hr⟩⟩ | ⟨-, hr⟩⟩
    · exact absurd htrue (by simp)
    · subst hr; rfl
    · subst hr; rfl
    · exact absurd htrue (by simp)
    · subst hr; rfl
    · subst hr; rfl
  · intro op rcs cobj mto parsed hop hrc hco hcj hp hv
    rw [hop] at hop2
    obtain rfl : op = op2 := Option.some.inj hop2
    rcases hbr with ⟨hrc2, -⟩ | ⟨rcs2, hrc2, hco2, hr⟩ |
      ⟨rcs2, cobj2, mto2, parsed2, hrc2, hco2, hcj2, hp2, hrest⟩
    · rw [hrc] at hrc2; exact Option.noConfusion hrc2
    · rw [hrc] at hrc2
      obtain rfl : rcs = rcs2 := Option.some.inj hrc2
      rw [hco] at hco2; exact Option.noConfusion hco2
    · rw [hrc] at hrc2
      obtain rfl : rcs = rcs2 := Option.some.inj hrc2
      rw [hco] at hco2
      obtain rfl : cobj = cobj2 := Option.some.inj hco2
      rw [hcj] at hcj2
      obtain rfl : mto = mto2 := Option.some.inj hcj2
      rw [hp] at hp2
      obtain rfl : parsed = parsed2 := Option.some.inj hp2
      rcases hrest with ⟨errs2, hv2, -⟩ | ⟨-, hr⟩
      · rw [hv] at hv2; exact Option.noConfusion hv2
      · subst hr; rfl

theorem claim_C6_witness :
    (⟨[⟨404, "\"x\""⟩], 404,
        checkDebugLogs 404 "get" "/p" "\"x\"" ++
          [⟨.warning, "Wrong response code: 404"⟩]⟩ : CheckResult).sends.map SendCall.body =
      [Json.stringify (.str "x")] :=
  (claim_C6 vNone false ⟨404⟩ docNoContent "get" "/p" (.str "x") _ (by rfl)).1 rfl

/-- Claim C7: the decision engine modifies res.statusCode in exactly
one branch, the strict schema-validation failure, where it forces 400;
on every other completed branch the status code set by the controller
is left unchanged. -/
theorem claim_C7 (validate : Validator) (strict : Bool) (res : Res) (oasDoc : OasDoc)
    (method requestedSpecPath data0 : String) (r : CheckResult)
    (h : checkResponse validate strict res oasDoc method requestedSpecPath data0 = some r) :
    (strictSchemaFailure validate strict res oasDoc method requestedSpecPath data0 →
      r.statusCode = 400) ∧
    (¬ strictSchemaFailure validate strict res oasDoc method requestedSpecPath data0 →
      r.statusCode = res.statusCode) := by
  obtain ⟨op2, hop2, hbr⟩ := checkResponse_cases _ _ _ _ _ _ _ _ h
  constructor
  · intro hc
    obtain ⟨hs, op, rcs, cobj, mto, parsed, errs, hop, hrc, hco, hcj, hp, hv⟩ := hc
    subst hs
    rw [hop] at hop2
    obtain rfl : op = op2 := Option.some.inj hop2
    rcases hbr with ⟨hrc2, -⟩ | ⟨rcs2, hrc2, hco2, hr⟩ |
      ⟨rcs2, cobj2, mto2, parsed2, hrc2, hco2, hcj2, hp2, hrest⟩
    · rw [hrc] at hrc2; exact Option.noConfusion hrc2
    · rw [hrc] at hrc2
      obtain rfl : rcs = rcs2 := Option.some.inj hrc2
      rw [hco] at hco2; exact Option.noConfusion hco2
    · rw [hrc] at hrc2
      obtain rfl : rcs = rcs2 := Option.some.inj hrc2
      rw [hco] at hco2
      obtain rfl : cobj = cobj2 := Option.some.inj hco2
      rw [hcj] at hcj2
      obtain rfl : mto = mto2 := Option.some.inj hcj2
      rw [hp] at hp2
      obtain rfl : parsed = parsed2 := Option.some.inj hp2
      rcases hrest with ⟨errs2, hv2, ⟨-, hr⟩ | ⟨hfalse, -⟩⟩ | ⟨hv2, -⟩
      · subst hr; rfl
      · exact absurd hfalse (by simp)
      · rw [hv] at hv2; exact Option.noConfusion hv2
  · intro hnc
    rcases hbr with ⟨hrc2, ⟨hs, hr⟩ | ⟨hs, hr⟩⟩ | ⟨rcs2, hrc2, hco2, hr⟩ |
      ⟨rcs2, cobj2, mto2, parsed2, hrc2, hco2, hcj2, hp2,
        ⟨errs2, hv2, ⟨hs, hr⟩ | ⟨hs, hr⟩⟩ | ⟨hv2, hr⟩⟩
    · subst hr; rfl
    · subst hr; rfl
    · subst hr; rfl
    · exact absurd ⟨hs, op2, rcs2, cobj2, mto2, parsed2, errs2,
        hop2, hrc2, hco2, hcj2, hp2, hv2⟩ hnc
    · subst hr; rfl
    · subst hr; rfl

theorem claim_C7_witness :
    (⟨[⟨400, Json.stringify (.obj [("message", .str "Wrong data in the response. bad type"),
          ("content", .obj [("id", .str "x")])])⟩], 400,
        checkDebugLogs 200 "get" "/p" (Json.stringify (.obj [("id", .str "x")])) ++
          [⟨.info, "Schema to use for validation: " ++ Json.stringify schemaNum⟩,
           ⟨.error, "Wrong data in the response. bad type"⟩]⟩ : CheckResult).statusCode = 400 :=
  (claim_C7 vFail true ⟨200⟩ docWithSchema "get" "/p"
      (Json.stringify (.obj [("id", .str "x")])) _ (by rfl)).1
    ⟨rfl, opWithSchema, ⟨some ⟨some ⟨schemaNum⟩⟩⟩, ⟨some ⟨schemaNum⟩⟩, ⟨schemaNum⟩,
      .obj [("id", .str "x")], [⟨"bad type"⟩],
      by rfl, by rfl, by rfl, by rfl, by rfl, by rfl⟩

/-- Claim C8 counterexample: for a declared status code whose
ResponseSpec carries a content section without an application/json
entry, the ResponseSpec has no schema for the JSON content type, yet
checkResponse raises (result none, reading schema of an undefined
media-type entry) instead of invoking the original send unmodified, so
the claim fails at this input. -/
theorem claim_C8_counterexample :
    checkResponse vNone false ⟨200⟩ docBadContent "get" "/p" "\"x\"" = none := rfl

/-- Claim C8 as amended: for a declared status code whose ResponseSpec
has no content section at all, the decision engine completes and
invokes the original send exactly once with the payload unmodified and
the status code unchanged, for either strictness setting. -/
theorem claim_C8 (validate : Validator) (strict : Bool) (res : Res) (oasDoc : OasDoc)
    (method requestedSpecPath data0 : String) (op : Operation) (rcs : ResponseSpec)
    (hop : lookupOperation oasDoc requestedSpecPath method = some op)
    (hrc : op.responses.lookup (toString res.statusCode) = some rcs)
    (hco : rcs.content = none) :
    checkResponse validate strict res oasDoc method requestedSpecPath data0 =
      some ⟨[⟨res.statusCode, data0⟩], res.statusCode,
            checkDebugLogs res.statusCode method requestedSpecPath data0⟩ := by
  unfold checkResponse
  dsimp only
  rw [hop]
  dsimp only
  rw [hrc]
  dsimp only
  rw [hco]

theorem claim_C8_witness :
    checkResponse vNone true ⟨200⟩ docNoContent "get" "/p" "\"x\"" =
      some ⟨[⟨200, "\"x\""⟩], 200, checkDebugLogs 200 "get" "/p" "\"x\""⟩ :=
  claim_C8 vNone true ⟨200⟩ docNoContent "get" "/p" "\"x\"" opNoContent ⟨none⟩
    (by rfl) (by rfl) (by rfl)

/-- Claim C4 counterexample: with no x-router-controller, a contract
path template whose first segment is a parameter, and a literal request
path /pets whose default controller name PetsController the probe
resolves, the router uses the name generated from the path template,
not the PetsController generated from the literal request path that the
claim asserts. -/
theorem claim_C4_counterexample :
    resolveControllerName rmPets "ctrl" docTemplate "/\x7bid\x7d" "/pets" "get" =
      some "\x7bid\x7dController" ∧
    ("\x7bid\x7dController" : String) ≠ "PetsController" ∧
    existsController rmPets "ctrl" "PetsController" = true :=
  ⟨rfl, by decide, rfl⟩

/-- Claim C4 as amended: controller resolution precedence, first match
wins: (1) a declared x-router-controller is used verbatim; (2) else,
when the existence probe succeeds for the default controller name
computed from the literal request path, the name used is the default
controller name computed from the contract path template; (3) else the
literal Default. -/
theorem claim_C4 (requireMod : RequireFn) (controllers : String) (oasDoc : OasDoc)
    (requestedSpecPath reqPath method : String) (op : Operation)
    (hop : lookupOperation oasDoc requestedSpecPath method = some op) :
    (∀ c, op.xRouterController = some c →
      resolveControllerName requireMod controllers oasDoc requestedSpecPath reqPath method =
        some c) ∧
    (∀ probeName, op.xRouterController = none →
      generateControllerName reqPath = some probeName →
      existsController requireMod controllers probeName = true →
      resolveControllerName requireMod controllers oasDoc requestedSpecPath reqPath method =
        generateControllerName requestedSpecPath) ∧
    (∀ probeName, op.xRouterController = none →
      generateControllerName reqPath = some probeName →
      existsController requireMod controllers probeName = false →
      resolveControllerName requireMod controllers oasDoc requestedSpecPath reqPath method =
        some "Default") := by
  refine ⟨?_, ?_, ?_⟩
  · intro c hx
    unfold resolveControllerName
    rw [hop]
    dsimp only
    rw [hx]
  · intro probeName hx hgen hex
    unfold resolveControllerName
    rw [hop]
    dsimp only
    rw [hx]
    dsimp only
    rw [hgen]
    dsimp only
    rw [if_pos hex]
  · intro probeName hx hgen hex
    unfold resolveControllerName
    rw [hop]
    dsimp only
    rw [hx]
    dsimp only
    rw [hgen]
    dsimp only
    rw [if_neg (by simp [hex])]

theorem claim_C4_witness :
    resolveControllerName rmPets "ctrl" docTemplate "/\x7bid\x7d" "/pets" "get" =
      generateControllerName "/\x7bid\x7d" ∧
    resolveControllerName rmNone "ctrl" docTemplate "/\x7bid\x7d" "/pets" "get" =
      some "Default" :=
  ⟨(claim_C4 rmPets "ctrl" docTemplate "/\x7bid\x7d" "/pets" "get" opNoContent
      (by rfl)).2.1 "PetsController" (by rfl) (by rfl) (by rfl),
   (claim_C4 rmNone "ctrl" docTemplate "/\x7bid\x7d" "/pets" "get" opNoContent
      (by rfl)).2.2 "PetsController" (by rfl) (by rfl) (by rfl)⟩

/-- Claim C5 fails on the code: OASRouter lower-cases the request
method before generateOpId, so nameMethod compares the string get
against the literal GET and falls through to the delete catch-all; a
GET request with no declared operationId resolves to deletePets rather
than listPets, and POST and PUT likewise resolve to deletePets. -/
theorem claim_C5_code_bug :
    routerOpId docPetsAll "/pets" "GET" = some "deletePets" ∧
    routerOpId docPetsAll "/pets" "POST" = some "deletePets" ∧
    routerOpId docPetsAll "/pets" "PUT" = some "deletePets" ∧
    (some "deletePets" : Option String) ≠ some ("list" ++ "Pets") :=
  ⟨rfl, rfl, rfl, by decide⟩

/-- Claim C9: the pure method-naming function maps GET to list, POST
to create, PUT to update, and every other input string, DELETE and
PATCH included, to delete. -/
theorem claim_C9 :
    nameMethod "GET" = "list" ∧ nameMethod "POST" = "create" ∧ nameMethod "PUT" = "update" ∧
    ∀ m : String, m ≠ "GET" → m ≠ "POST" → m ≠ "PUT" → nameMethod m = "delete" := by
  refine ⟨rfl, rfl, rfl, ?_⟩
  intro m h1 h2 h3
  simp [nameMethod, h1, h2, h3]

theorem claim_C9_witness :
    nameMethod "DELETE" = "delete" ∧ nameMethod "PATCH" = "delete" :=
  ⟨claim_C9.2.2.2 "DELETE" (by decide) (by decide) (by decide),
   claim_C9.2.2.2 "PATCH" (by decide) (by decide) (by decide)⟩

theorem efbnWalk_eq_foldlM (segs : List String) :
    ∀ context : JsV,
      (match efbnWalk context segs with
       | some (some c) => some c
       | _ => none) =
        segs.foldlM (fun c n => JsV.getProp c n) context := by
  induction segs with
  | nil => intro context; rfl
  | cons n ns ih =>
    intro context
    simp only [efbnWalk, List.foldlM]
    cases hp : context.getProp n with
    | some c =>
      simpa using ih c
    | none =>
      cases ns <;> simp

/-- Claim C10: executeFunctionByName splits the operation identifier
on dots, walks every segment before the last as a nested property of
the controller module, and calls the function named by the last
segment on the resulting object with exactly the arguments request,
response and continuation; in particular an identifier with no dot
calls that property of the controller directly. -/
theorem claim_C10 :
    (∀ (α : Type) (functionName : String) (context : JsV) (req res next : α),
      executeFunctionByName functionName context req res next =
        specInvoke functionName context req res next) ∧
    (∀ (α : Type) (opID : String) (controller : JsV) (tag : String) (req res next : α),
      jsSplit opID '.' = [opID] →
      controller.getProp opID = some (.fn tag) →
      executeFunctionByName opID controller req res next =
        some ⟨controller, .fn tag, [req, res, next]⟩) := by
  constructor
  · intro α functionName context req res next
    unfold executeFunctionByName specInvoke
    dsimp only
    cases hl : (jsSplit functionName '.').getLast? with
    | none => rfl
    | some func =>
      dsimp only
      rw [← efbnWalk_eq_foldlM]
      cases hw : efbnWalk context (jsSplit functionName '.').dropLast with
      | none => rfl
      | some o => cases o <;> rfl
  · intro α opID controller tag req res next hsplit hprop
    simp [executeFunctionByName, hsplit, efbnWalk, hprop]

theorem claim_C10_witness :
    executeFunctionByName "users.create" (JsV.obj [("users", JsV.obj [("create", JsV.fn "h")])])
        (1 : Nat) 2 3 =
      specInvoke "users.create" (JsV.obj [("users", JsV.obj [("create", JsV.fn "h")])]) 1 2 3 ∧
    executeFunctionByName "listPets" (JsV.obj [("listPets", JsV.fn "lp")]) (1 : Nat) 2 3 =
      some ⟨JsV.obj [("listPets", JsV.fn "lp")], JsV.fn "lp", [1, 2, 3]⟩ :=
  ⟨claim_C10.1 Nat "users.create" (JsV.obj [("users", JsV.obj [("create", JsV.fn "h")])]) 1 2 3,
   claim_C10.2 Nat "listPets" (JsV.obj [("listPets", JsV.fn "lp")]) "lp" 1 2 3 (by rfl) (by rfl)⟩

end OasRouter
